import Mathlib

/-!
Shallow embedding of `src/app/utils/chatbot.py` (chatAssistant repository).

The module glues a chat UI to a retrieval-augmented-generation pipeline:
`get_context_retriever_chain` builds a prompt template and a pipeline,
`get_response` invokes the pipeline with the question and the chat history,
and `chat` runs one interaction cycle of the UI loop (read input, invoke the
pipeline, append the exchange to the history, group citations for the side
panel, replay the transcript).

The external pipeline (vector store, LLM call) is modelled as an abstract
function `chain : ChainInput → Except String ChainOutput`; a Python
exception is modelled as `Except.error` with the error message.  Python
lists become Lean lists, langchain `HumanMessage`/`AIMessage` become the
`ChatMessage` inductive, and the insertion-ordered `defaultdict(list)` used
for citation grouping becomes an association list updated by `dictAppend`.
-/

namespace ChatAssistant

/-- A chat message: langchain `HumanMessage` or `AIMessage` with its text. -/
inductive ChatMessage where
  | human (content : String)
  | ai (content : String)
  deriving DecidableEq, Repr

/-- The text of a message (`message.content` in the source). -/
def ChatMessage.content : ChatMessage → String
  | .human c => c
  | .ai c => c

/-- The `isinstance(message, AIMessage)` test of line 88. -/
def ChatMessage.isAssistant : ChatMessage → Bool
  | .ai _ => true
  | .human _ => false

/-- Metadata of a retrieved document.  The code reads exactly the keys
`source` and `page` of `doc.metadata` (lines 81-82); a key that may be
absent from the Python dict is an `Option` field. -/
structure Metadata where
  source : Option String
  page : Option Int
  deriving DecidableEq, Repr

/-- The dict passed to `chain.invoke` on line 58. -/
structure ChainInput where
  input : String
  chat_history : List ChatMessage
  deriving DecidableEq, Repr

/-- The dict returned by the retrieval chain: the code reads
`response["answer"]` and `response["context"]` (line 59). -/
structure ChainOutput where
  answer : String
  context : List Metadata
  deriving DecidableEq, Repr

/-- One entry of the `ChatPromptTemplate.from_messages` list (lines 25-37):
a system template string, a `MessagesPlaceholder`, or a human template. -/
inductive PromptMessage where
  | system (template : String)
  | messagesPlaceholder (variableName : String)
  | human (template : String)
  deriving DecidableEq, Repr

/-- The system instruction template of lines 26-34, verbatim. -/
def systemTemplate : String :=
  "You are a multilingual chatbot powered by a Retrieval-Augmented Generation (RAG) system. Your task is to answer the user\x27s question using ONLY the context provided from the vector database. Follow these rules:\n\n"
  ++ "1. **Language Detection**: Respond in the same language as the user\x27s input. If the input is in Arabic, respond in Arabic. If the input is in English, respond in English.\n"
  ++ "2. **Contextual Answers**: Use ONLY the information from the provided context to answer the question. Do not rely on your own knowledge or invent answers.\n"
  ++ "3. **Unanswerable Questions**: If the context does not contain enough information to answer the question, politely ask the user for more details or clarification.\n"
  ++ "4. **Ambiguity**: If the question is ambiguous or unclear, ask the user to rephrase or provide more context.\n\n"
  ++ "Here is the context from the vector database:\n{context}"

/-- The message list handed to `ChatPromptTemplate.from_messages`
(lines 25-37): system template, `chat_history` placeholder, human
`{input}` slot. -/
def prompt : List PromptMessage :=
  [PromptMessage.system systemTemplate,
   PromptMessage.messagesPlaceholder ("chat_history"),
   PromptMessage.human ("{input}")]

/-- Does the pattern occur at the head of the character list? -/
def beginsWith : List Char → List Char → Bool
  | _, [] => true
  | [], _ :: _ => false
  | c :: s, d :: p => c = d && beginsWith s p

/-- Does the pattern occur anywhere in the character list? -/
def hasSub : List Char → List Char → Bool
  | [], pat => pat.isEmpty
  | c :: rest, pat => beginsWith (c :: rest) pat || hasSub rest pat

/-- The argument dict built for `chain.invoke` on line 58:
`{"input": question, "chat_history": chat_history}`.  The history is passed
through whole; nothing in `get_response` truncates it. -/
def invocationInput (question : String) (chat_history : List ChatMessage) : ChainInput :=
  ⟨question, chat_history⟩

/-- `get_response` (lines 44-59): invoke the pipeline with the question and
the chat history and project out answer and context.  The construction of
the pipeline itself (`get_context_retriever_chain`) only wires external
library objects, so the constructed pipeline is the abstract parameter
`chain`; nothing is caught, so an error result passes through. -/
def get_response (chain : ChainInput → Except String ChainOutput)
    (question : String) (chat_history : List ChatMessage) :
    Except String (String × List Metadata) :=
  match chain (invocationInput question chat_history) with
  | .error e => .error e
  | .ok response => .ok (response.answer, response.context)

/-- Append a value to the list stored under a key of the insertion-ordered
dict: `metadata_dict[k].append(v)` where `metadata_dict` is a
`defaultdict(list)` (lines 80-82).  A fresh key goes to the end. -/
def dictAppend : List (String × List Int) → String → Int → List (String × List Int)
  | [], k, v => [(k, [v])]
  | (k', vs) :: rest, k, v =>
      if k' = k then (k', vs ++ [v]) :: rest else (k', vs) :: dictAppend rest k v

/-- Lookup in the association list modelling `metadata_dict`; a key never
inserted holds the empty page list. -/
def dget : List (String × List Int) → String → List Int
  | [], _ => []
  | (k, vs) :: rest, s => if k = s then vs else dget rest s

/-- The key sequence of the insertion-ordered dict. -/
def keys (d : List (String × List Int)) : List String :=
  d.map Prod.fst

/-- The citation-grouping loop of lines 80-82 continued from an accumulated
dict: for each metadata dict, read `metadata["source"]` (KeyError when
absent), then `metadata["page"]` (KeyError when absent), and append the
page under the source. -/
def groupFrom (d : List (String × List Int)) :
    List Metadata → Except String (List (String × List Int))
  | [] => .ok d
  | m :: rest =>
    match m.source with
    | none => .error ("KeyError: source")
    | some s =>
      match m.page with
      | none => .error ("KeyError: page")
      | some p => groupFrom (dictAppend d s p) rest

/-- The citation-grouping step (lines 80-82) starting from the empty
`defaultdict(list)`. -/
def groupCitations (context : List Metadata) : Except String (List (String × List Int)) :=
  groupFrom [] context

/-- The pages of the documents of a given source, in retrieval order. -/
def pagesOf (s : String) : List Metadata → List Int
  | [] => []
  | m :: rest =>
    match m.source, m.page with
    | some s', some p => if s' = s then p :: pagesOf s rest else pagesOf s rest
    | _, _ => pagesOf s rest

/-- The source of every document, in retrieval order (documents lacking the
key are skipped; the grouping step fails on those anyway). -/
def sourcesOf (context : List Metadata) : List String :=
  context.filterMap (fun m => m.source)

/-- First-occurrence subsequence: keep each element the first time it shows
up and drop repeats, given a set of already-seen elements. -/
def firstOccurFrom : List String → List String → List String
  | _, [] => []
  | seen, s :: rest =>
    if s ∈ seen then firstOccurFrom seen rest
    else s :: firstOccurFrom (s :: seen) rest

/-- The transcript replay of lines 87-89: every message of the history in
order, shown under the label `"AI"` when it is an `AIMessage` and `"Human"`
otherwise. -/
def render (chat_history : List ChatMessage) : List (String × String) :=
  chat_history.map (fun message =>
    ((if message.isAssistant then "AI" else "Human"), message.content))

/-- Everything one interaction cycle of `chat` produces: the returned
history, the queries sent to the pipeline, the side-panel citation dict,
and the replayed transcript. -/
structure ChatOutput where
  history : List ChatMessage
  invocations : List String
  citations : List (String × List Int)
  rendered : List (String × String)
  deriving DecidableEq, Repr

/-- One interaction cycle of `chat` (lines 61-90).  `user_query` is what
`st.chat_input` returned (`none` when no input was submitted).  The guard
of line 73 is exactly `is not None and != ""`.  On a passing guard the
pipeline is invoked, the history is rebuilt by list concatenation
(line 77), citations are grouped (an uncaught KeyError aborts the cycle),
and the transcript is replayed from the updated history. -/
def chat (chain : ChainInput → Except String ChainOutput)
    (chat_history : List ChatMessage) (user_query : Option String) :
    Except String ChatOutput :=
  match user_query with
  | none => .ok ⟨chat_history, [], [], render chat_history⟩
  | some q =>
    if q = "" then
      .ok ⟨chat_history, [], [], render chat_history⟩
    else
      match get_response chain q chat_history with
      | .error e => .error e
      | .ok (response, context) =>
        match groupCitations context with
        | .error e => .error e
        | .ok citations =>
          let newHistory := chat_history ++ [ChatMessage.human q, ChatMessage.ai response]
          .ok ⟨newHistory, [q], citations, render newHistory⟩

/-! ### Concrete instances used to exercise the theorems -/

/-- A pipeline stub answering every invocation with a fixed answer and no
retrieved documents. -/
def chainStub : ChainInput → Except String ChainOutput :=
  fun _ => Except.ok ⟨"ans", []⟩

/-- A pipeline stub failing every invocation, as an auth failure would. -/
def chainStubFail : ChainInput → Except String ChainOutput :=
  fun _ => Except.error ("auth failure")

/-- A two-message prior history. -/
def historyStub : List ChatMessage :=
  [ChatMessage.human ("a"), ChatMessage.ai ("b")]

/-- What one cycle of `chat` produces from `historyStub`, the query
`"hi"` and `chainStub`. -/
def outStub : ChatOutput :=
  ⟨[ChatMessage.human ("a"), ChatMessage.ai ("b"),
    ChatMessage.human ("hi"), ChatMessage.ai ("ans")],
   ["hi"], [],
   [("Human", "a"), ("AI", "b"), ("Human", "hi"), ("AI", "ans")]⟩

/-- The context list of the worked grouping example of the design notes. -/
def exampleContext : List Metadata :=
  [⟨some ("a"), some 1⟩, ⟨some ("b"), some 2⟩, ⟨some ("a"), some 3⟩]

/-- A context list with a repeated (source, page) pair. -/
def dupContext : List Metadata :=
  [⟨some ("a"), some 1⟩, ⟨some ("b"), some 7⟩, ⟨some ("a"), some 1⟩]

/-- A context list whose document lacks the `page` key. -/
def missingMeta : List Metadata := [⟨some ("a"), none⟩]

/-- A context list whose document carries both keys. -/
def completeMeta : List Metadata := [⟨some ("a"), some 1⟩]

/-! ### Helper lemmas about the citation-grouping dict -/

/-- Appending under a key leaves every other key's pages unchanged and
appends one page under the key itself. -/
theorem dget_dictAppend (d : List (String × List Int)) (k : String) (v : Int) (s : String) :
    dget (dictAppend d k v) s = if k = s then dget d s ++ [v] else dget d s := by
  induction d with
  | nil => by_cases h : k = s <;> simp [dictAppend, dget, h]
  | cons kv rest ih =>
    obtain ⟨k', vs⟩ := kv
    by_cases h1 : k' = k
    · subst h1
      by_cases h2 : k' = s <;> simp [dictAppend, dget, h2]
    · by_cases h2 : k' = s
      · subst h2
        have hks : ¬ k = k' := fun h => h1 h.symm
        simp [dictAppend, dget, h1, hks]
      · simp [dictAppend, dget, h1, h2, ih]

/-- Appending under an existing key keeps the key sequence; a fresh key goes
to the end. -/
theorem keys_dictAppend (d : List (String × List Int)) (k : String) (v : Int) :
    keys (dictAppend d k v) = if k ∈ keys d then keys d else keys d ++ [k] := by
  induction d with
  | nil => simp [dictAppend, keys]
  | cons kv rest ih =>
    obtain ⟨k', vs⟩ := kv
    by_cases h1 : k' = k
    · subst h1; simp [dictAppend, keys]
    · have hkk : ¬ k = k' := fun h => h1 h.symm
      have hstep : keys (dictAppend ((k', vs) :: rest) k v)
          = k' :: keys (dictAppend rest k v) := by
        simp [dictAppend, h1, keys]
      have hmem : (k ∈ keys ((k', vs) :: rest)) ↔ k ∈ keys rest := by
        simp [keys, hkk]
      by_cases h2 : k ∈ keys rest
      · rw [hstep, ih, if_pos h2, if_pos (hmem.mpr h2)]
        simp [keys]
      · rw [hstep, ih, if_neg h2, if_neg (fun hx => h2 (hmem.mp hx))]
        simp [keys]

/-- `firstOccurFrom` only looks at the seen set through membership. -/
theorem firstOccurFrom_congr (l : List String) :
    ∀ seen₁ seen₂, (∀ x, x ∈ seen₁ ↔ x ∈ seen₂) →
      firstOccurFrom seen₁ l = firstOccurFrom seen₂ l := by
  induction l with
  | nil => intro _ _ _; rfl
  | cons s rest ih =>
    intro seen₁ seen₂ h
    by_cases hs : s ∈ seen₁
    · simp only [firstOccurFrom, if_pos hs, if_pos ((h s).mp hs)]
      exact ih seen₁ seen₂ h
    · simp only [firstOccurFrom, if_neg hs, if_neg (fun hx => hs ((h s).mpr hx))]
      exact congrArg (s :: ·) (ih _ _ (fun x => by simp [List.mem_cons, h x]))

/-- Running the grouping loop from an accumulated dict appends, under every
source, exactly that source's pages in retrieval order. -/
theorem dget_groupFrom (ms : List Metadata) :
    ∀ d d', groupFrom d ms = Except.ok d' →
      ∀ s, dget d' s = dget d s ++ pagesOf s ms := by
  induction ms with
  | nil =>
    intro d d' h s
    simp only [groupFrom] at h
    cases h
    simp [pagesOf]
  | cons m rest ih =>
    intro d d' h s
    match hs : m.source with
    | none => simp [groupFrom, hs] at h
    | some src =>
      match hp : m.page with
      | none => simp [groupFrom, hs, hp] at h
      | some p =>
        simp only [groupFrom, hs, hp] at h
        have hrec := ih (dictAppend d src p) d' h s
        rw [hrec, dget_dictAppend]
        by_cases hsrc : src = s
        · subst hsrc
          simp [pagesOf, hs, hp, List.append_assoc]
        · simp [pagesOf, hs, hp, hsrc]

/-- Running the grouping loop from an accumulated dict appends the new
sources, first occurrence first, after the existing keys. -/
theorem keys_groupFrom (ms : List Metadata) :
    ∀ d d', groupFrom d ms = Except.ok d' →
      keys d' = keys d ++ firstOccurFrom (keys d) (sourcesOf ms) := by
  induction ms with
  | nil =>
    intro d d' h
    simp only [groupFrom] at h
    cases h
    simp [sourcesOf, firstOccurFrom]
  | cons m rest ih =>
    intro d d' h
    match hs : m.source with
    | none => simp [groupFrom, hs] at h
    | some s =>
      match hp : m.page with
      | none => simp [groupFrom, hs, hp] at h
      | some p =>
        simp only [groupFrom, hs, hp] at h
        have hrec := ih (dictAppend d s p) d' h
        have hsrc : sourcesOf (m :: rest) = s :: sourcesOf rest := by
          simp [sourcesOf, hs]
        rw [hrec, keys_dictAppend, hsrc]
        by_cases hk : s ∈ keys d
        · rw [if_pos hk]
          simp only [firstOccurFrom, if_pos hk]
        · rw [if_neg hk]
          simp only [firstOccurFrom, if_neg hk, List.append_assoc, List.singleton_append]
          refine congrArg (fun l => keys d ++ s :: l) ?_
          exact firstOccurFrom_congr (sourcesOf rest) _ _
            (fun x => by simp [List.mem_append, List.mem_cons, or_comm])

/-- A document lacking a key makes the grouping loop raise a KeyError. -/
theorem groupFrom_error_of_missing (ms : List Metadata) :
    ∀ d, (∃ m ∈ ms, m.source = none ∨ m.page = none) →
      ∃ e, groupFrom d ms = Except.error e := by
  induction ms with
  | nil => intro d h; simp at h
  | cons m rest ih =>
    intro d h
    match hs : m.source with
    | none => exact ⟨"KeyError: source", by simp [groupFrom, hs]⟩
    | some s =>
      match hp : m.page with
      | none => exact ⟨"KeyError: page", by simp [groupFrom, hs, hp]⟩
      | some p =>
        obtain ⟨m', hm', hcase⟩ := h
        rcases List.mem_cons.mp hm' with rfl | hm'
        · rw [hs, hp] at hcase
          simp at hcase
        · have := ih (dictAppend d s p) ⟨m', hm', hcase⟩
          simpa [groupFrom, hs, hp] using this

/-- When every document carries both keys the grouping loop succeeds. -/
theorem groupFrom_ok_of_total (ms : List Metadata) :
    ∀ d, (∀ m ∈ ms, m.source ≠ none ∧ m.page ≠ none) →
      ∃ d', groupFrom d ms = Except.ok d' := by
  induction ms with
  | nil => exact fun d _ => ⟨d, rfl⟩
  | cons m rest ih =>
    intro d h
    have hm := h m (List.mem_cons_self m rest)
    match hs : m.source with
    | none => exact absurd hs hm.1
    | some s =>
      match hp : m.page with
      | none => exact absurd hp hm.2
      | some p =>
        have := ih (dictAppend d s p) (fun m' hm' => h m' (List.mem_cons_of_mem _ hm'))
        simpa [groupFrom, hs, hp] using this

/-- Case analysis on a successful interaction cycle: either the guard of
line 73 failed and nothing happened, or the pipeline was invoked once and
the cycle appended exactly the new exchange. -/
theorem chat_ok_cases
    (chain : ChainInput → Except String ChainOutput)
    (H : List ChatMessage) (uq : Option String) (out : ChatOutput)
    (hok : chat chain H uq = Except.ok out) :
    (out = ⟨H, [], [], render H⟩ ∧ (uq = none ∨ uq = some "")) ∨
    (∃ q answer context citations,
        uq = some q ∧ q ≠ "" ∧
        get_response chain q H = Except.ok (answer, context) ∧
        groupCitations context = Except.ok citations ∧
        out = ⟨H ++ [ChatMessage.human q, ChatMessage.ai answer], [q], citations,
               render (H ++ [ChatMessage.human q, ChatMessage.ai answer])⟩) := by
  match uq with
  | none =>
    left
    simp only [chat] at hok
    cases hok
    exact ⟨rfl, Or.inl rfl⟩
  | some q =>
    by_cases hq : q = ""
    · left
      subst hq
      simp only [chat, if_pos rfl] at hok
      cases hok
      exact ⟨rfl, Or.inr rfl⟩
    · right
      simp only [chat, if_neg hq] at hok
      match hresp : get_response chain q H with
      | .error e => simp [hresp] at hok
      | .ok (answer, context) =>
        simp only [hresp] at hok
        match hg : groupCitations context with
        | .error e => simp [hg] at hok
        | .ok citations =>
          simp only [hg, Except.ok.injEq] at hok
          exact ⟨q, answer, context, citations, rfl, hq, hresp, hg, hok.symm⟩

/-! ### Claim theorems -/

/-- Claim C1: for every chat history H and non-empty user input Q, a
completed interaction cycle returns H with exactly one human message
(content = Q) followed immediately by one assistant message (content = the
pipeline answer) appended, in that order; no existing entry of H is
removed, changed, or reordered. -/
theorem chat_appends_one_exchange
    (chain : ChainInput → Except String ChainOutput)
    (q answer : String) (H : List ChatMessage)
    (context : List Metadata) (out : ChatOutput)
    (hq : q ≠ "")
    (hresp : get_response chain q H = Except.ok (answer, context))
    (hok : chat chain H (some q) = Except.ok out) :
    out.history = H ++ [ChatMessage.human q, ChatMessage.ai answer] := by
  rcases chat_ok_cases chain H (some q) out hok with
    ⟨rfl, h | h⟩ | ⟨q', a', c', cit, hq', hne, hresp', hg, rfl⟩
  · exact absurd h (by simp)
  · exact absurd (Option.some.inj h) hq
  · cases Option.some.inj hq'
    rw [hresp] at hresp'
    cases hresp'
    rfl

/-- Claim C1 witness: the theorem applied to the stub pipeline, the query
`"hi"` and the two-message history. -/
theorem chat_appends_one_exchange_witness :
    outStub.history = historyStub ++ [ChatMessage.human ("hi"), ChatMessage.ai ("ans")] :=
  chat_appends_one_exchange chainStub ("hi") ("ans") historyStub [] outStub
    (by decide) rfl rfl

/-- Claim C2: citation grouping lists, under every source, exactly that
source's page values in retrieval order; on the worked example with
(source, page) pairs ("a",1), ("b",2), ("a",3) it yields the dict
mapping "a" to [1, 3] and "b" to [2]. -/
theorem groupCitations_pages_in_retrieval_order :
    (∀ (context : List Metadata) (d : List (String × List Int)),
        groupCitations context = Except.ok d →
        ∀ s : String, dget d s = pagesOf s context) ∧
    groupCitations exampleContext = Except.ok [("a", [1, 3]), ("b", [2])] := by
  constructor
  · intro context d hok s
    have h := dget_groupFrom context [] d hok s
    simpa [dget] using h
  · rfl

/-- Claim C2 witness: the general part of the theorem applied to the worked
example and the source "a". -/
theorem groupCitations_pages_in_retrieval_order_witness :
    dget [("a", [1, 3]), ("b", [2])] ("a") = pagesOf ("a") exampleContext :=
  groupCitations_pages_in_retrieval_order.1 exampleContext
    [("a", [1, 3]), ("b", [2])] rfl ("a")

/-- Claim C3 counterexample: the guard of line 73 is only
`is not None and != ""`, so the whitespace-only input " " does invoke the
pipeline and does append to the history, contradicting the claim that
whitespace-only input triggers no pipeline invocation and no history
mutation. -/
theorem whitespace_query_triggers_pipeline :
    chat chainStub [] (some (" ")) =
      Except.ok ⟨[ChatMessage.human (" "), ChatMessage.ai ("ans")], [" "], [],
        [("Human", " "), ("AI", "ans")]⟩ ∧
    [ChatMessage.human (" "), ChatMessage.ai ("ans")] ≠ ([] : List ChatMessage) ∧
    ([" "] : List String) ≠ [] :=
  ⟨rfl, by decide, by decide⟩

/-- Claim C3 (amended): when the cycle's input is None or the empty string,
the chat loop invokes no pipeline (the result does not depend on the
pipeline at all) and returns the history unchanged. -/
theorem none_or_empty_query_skips_pipeline
    (chain chain' : ChainInput → Except String ChainOutput)
    (H : List ChatMessage) (uq : Option String)
    (h : uq = none ∨ uq = some "") :
    chat chain H uq = Except.ok ⟨H, [], [], render H⟩ ∧
    chat chain H uq = chat chain' H uq := by
  rcases h with h | h <;> subst h
  · exact ⟨rfl, rfl⟩
  · exact ⟨rfl, rfl⟩

/-- Claim C3 witness: the amended theorem applied to two different stub
pipelines and the empty submission. -/
theorem none_or_empty_query_skips_pipeline_witness :
    chat chainStub historyStub none = Except.ok ⟨historyStub, [], [], render historyStub⟩ ∧
    chat chainStub historyStub none = chat chainStubFail historyStub none :=
  none_or_empty_query_skips_pipeline chainStub chainStubFail historyStub none (Or.inl rfl)

set_option maxRecDepth 10000

/-- Claim C4: the prompt template built on lines 25-37 has a system message
whose template contains the literal `{context}` slot, then a
`MessagesPlaceholder` for `chat_history`, then a human message whose
template is the literal `{input}` slot. -/
theorem prompt_has_placeholder_slots :
    prompt.get? 0 = some (PromptMessage.system systemTemplate) ∧
    hasSub systemTemplate.toList (String.toList ("{context}")) = true ∧
    prompt.get? 1 = some (PromptMessage.messagesPlaceholder ("chat_history")) ∧
    prompt.get? 2 = some (PromptMessage.human ("{input}")) :=
  ⟨rfl, rfl, rfl, rfl⟩

/-- Claim C5: `get_response` wraps the pipeline invocation in no handler:
an error outcome of the invocation is returned unchanged, with no retry and
no fallback result. -/
theorem get_response_propagates_error
    (chain : ChainInput → Except String ChainOutput)
    (question : String) (H : List ChatMessage) (e : String)
    (herr : chain (invocationInput question H) = Except.error e) :
    get_response chain question H = Except.error e := by
  unfold get_response
  rw [herr]

/-- Claim C5 witness: the theorem applied to the failing stub pipeline. -/
theorem get_response_propagates_error_witness :
    get_response chainStubFail ("q") [] = Except.error ("auth failure") :=
  get_response_propagates_error chainStubFail ("q") [] ("auth failure") rfl

/-- Claim C6: the citation-grouping step fails with a KeyError exactly when
some retrieved document lacks the `source` key or the `page` key; when
every document carries both, grouping succeeds. -/
theorem groupCitations_keyerror_iff_missing (context : List Metadata) :
    (groupCitations context).isOk = false ↔
      ∃ m ∈ context, m.source = none ∨ m.page = none := by
  constructor
  · intro h
    by_contra hno
    push_neg at hno
    obtain ⟨d, hd⟩ := groupFrom_ok_of_total context []
      (fun m hm => ⟨(hno m hm).1, (hno m hm).2⟩)
    rw [groupCitations, hd] at h
    exact Bool.noConfusion h
  · intro h
    obtain ⟨e, he⟩ := groupFrom_error_of_missing context [] h
    rw [groupCitations, he]
    rfl

/-- Claim C6 witness: grouping fails on a document lacking the `page` key
and succeeds on a document carrying both keys. -/
theorem groupCitations_keyerror_iff_missing_witness :
    (groupCitations missingMeta).isOk = false ∧
    (groupCitations completeMeta).isOk = true :=
  ⟨(groupCitations_keyerror_iff_missing missingMeta).mpr
      ⟨⟨some ("a"), none⟩, by decide, Or.inr rfl⟩,
   rfl⟩

/-- Claim C7: the dict handed to the pipeline on line 58 carries the entire
chat history unmodified — no truncation (to 10 messages or any number) is
applied by `get_response` before the invocation. -/
theorem get_response_passes_full_history
    (chain : ChainInput → Except String ChainOutput)
    (question : String) (H : List ChatMessage) :
    (invocationInput question H).chat_history = H ∧
    ((invocationInput question H).chat_history).length = H.length ∧
    get_response chain question H =
      (match chain (invocationInput question H) with
       | Except.error e => Except.error e
       | Except.ok r => Except.ok (r.answer, r.context)) :=
  ⟨rfl, rfl, rfl⟩

/-- Claim C8: a completed cycle replays the whole resulting history in
order, one rendered entry per message, labelled "AI" exactly for assistant
messages and "Human" otherwise. -/
theorem chat_renders_full_history
    (chain : ChainInput → Except String ChainOutput)
    (H : List ChatMessage) (uq : Option String) (out : ChatOutput)
    (hok : chat chain H uq = Except.ok out) :
    out.rendered.length = out.history.length ∧
    ∀ i : Nat, out.rendered[i]? =
      (out.history[i]?).map (fun m =>
        ((if m.isAssistant then "AI" else "Human"), m.content)) := by
  have hr : out.rendered = render out.history := by
    rcases chat_ok_cases chain H uq out hok with
      ⟨rfl, _⟩ | ⟨q, answer, context, citations, _, _, _, _, rfl⟩
    · rfl
    · rfl
  constructor
  · rw [hr]; simp [render]
  · intro i
    rw [hr]
    simp [render, List.getElem?_map]

/-- Claim C8 witness: the theorem applied to the stub cycle, checked at the
third rendered entry. -/
theorem chat_renders_full_history_witness :
    outStub.rendered.length = outStub.history.length ∧
    outStub.rendered[2]? =
      (outStub.history[2]?).map (fun m =>
        ((if m.isAssistant then "AI" else "Human"), m.content)) :=
  ⟨(chat_renders_full_history chainStub historyStub (some ("hi")) outStub rfl).1,
   (chat_renders_full_history chainStub historyStub (some ("hi")) outStub rfl).2 2⟩

/-- Claim C9: the cycle never destroys the caller's history value: on a
non-empty input the updated history is the old value concatenated with the
two new messages, so its first |H| entries are exactly H. -/
theorem chat_preserves_caller_history
    (chain : ChainInput → Except String ChainOutput)
    (q : String) (H : List ChatMessage) (out : ChatOutput)
    (hq : q ≠ "") (hok : chat chain H (some q) = Except.ok out) :
    out.history.take H.length = H ∧ out.history.length = H.length + 2 := by
  rcases chat_ok_cases chain H (some q) out hok with
    ⟨rfl, h | h⟩ | ⟨q', answer, context, citations, hq', hne, _, _, rfl⟩
  · exact absurd h (by simp)
  · exact absurd (Option.some.inj h) hq
  · constructor
    · exact List.take_left H _
    · simp

/-- Claim C9 witness: the theorem applied to the stub cycle. -/
theorem chat_preserves_caller_history_witness :
    outStub.history.take historyStub.length = historyStub ∧
    outStub.history.length = historyStub.length + 2 :=
  chat_preserves_caller_history chainStub ("hi") historyStub outStub (by decide) rfl

/-- Claim C10: in the side-panel dict the sources appear in order of first
occurrence in the retrieved-document list, and duplicate page numbers of
one source are kept, in retrieval order, as the repeated pair ("a", 1) in
the concrete instance shows. -/
theorem groupCitations_first_occurrence_order :
    (∀ (context : List Metadata) (d : List (String × List Int)),
        groupCitations context = Except.ok d →
        keys d = firstOccurFrom [] (sourcesOf context)) ∧
    groupCitations dupContext = Except.ok [("a", [1, 1]), ("b", [7])] := by
  constructor
  · intro context d h
    have hk := keys_groupFrom context [] d h
    simpa [keys] using hk
  · rfl

/-- Claim C10 witness: the general part of the theorem applied to the
duplicate-pair context. -/
theorem groupCitations_first_occurrence_order_witness :
    keys [("a", [1, 1]), ("b", [7])] = firstOccurFrom [] (sourcesOf dupContext) :=
  groupCitations_first_occurrence_order.1 dupContext
    [("a", [1, 1]), ("b", [7])] rfl

end ChatAssistant
